import Mathlib

/-!
Verification of the study-helper backend schema (`src/db_schema.rs`) and the
behavioral contract specified on top of it.

The repository source is a declarative database schema: table shapes, enum
types, uniqueness and check constraints.  Rows of the relevant tables are
embedded as Lean structures whose fields mirror the columns (nullable columns
become `Option`, `integer` becomes `Int` or `Nat` as appropriate, enum columns
become inductive types listing exactly the enum's labels).  The behavioral
operations named by the specification (completeSession, createVersion,
postComment, softDeleteComment, rate, dispatch) have no implementation in the
source; they are modelled from the spec, each marked as such in its doc
comment.  Timestamp bookkeeping columns (`created_at`, `updated_at`) that no
claim depends on are omitted from the row structures.
-/

namespace StudyHelper

/-- The labels of `content_type_enum` exactly as declared in the schema:
`CREATE TYPE content_type_enum AS ENUM ('file', 'summary', 'quiz')`. -/
def content_type_enum : List String := ["file", "summary", "quiz"]

/-- Lean-side enum mirroring `content_type_enum`: one constructor per label. -/
inductive ContentType where
  | file
  | summary
  | quiz
deriving DecidableEq, Repr

/-- The PostgreSQL label of each `ContentType` value. -/
def ContentType.toDbString : ContentType → String
  | .file => "file"
  | .summary => "summary"
  | .quiz => "quiz"

/-- Modelled from the spec: the spec's ContentRef kind set
`enum(File, Summary, Quiz, Comment, QuizSession)`, rendered with the schema's
snake_case label convention.  This is the spec-side definition, to be compared
with `content_type_enum` from the source. -/
def specContentKinds : List String :=
  ["file", "summary", "quiz", "comment", "quiz_session"]

/-- `difficulty_level_enum AS ENUM ('Easy', 'Medium', 'Hard')`. -/
inductive DifficultyLevel where
  | Easy
  | Medium
  | Hard
deriving DecidableEq, Repr

/-- `notification_type_enum AS ENUM ('new_content', 'comment_reply',
'quiz_result', 'community_invite', 'mention')`. -/
inductive NotificationType where
  | new_content
  | comment_reply
  | quiz_result
  | community_invite
  | mention
deriving DecidableEq, Repr

/-- `rating_value_enum AS ENUM ('1', '2', '3', '4', '5')`. -/
inductive RatingValue where
  | star1
  | star2
  | star3
  | star4
  | star5
deriving DecidableEq, Repr

/-- The error taxonomy of spec section 7. -/
inductive ErrKind where
  | NotFound
  | Forbidden
  | Conflict
  | SessionClosed
  | ValidationError
  | Transient
deriving DecidableEq, Repr

/-- A row of `mcq_question`: `option_a`/`option_b` are `not null`,
`option_c`/`option_d` are nullable, `correct_option` is `char(1)` with check
constraint `correct_option IN ('A', 'B', 'C', 'D')` (the constraint itself is
`mcqQuestionCheck` below).  `explanation` and `hint` are nullable, and
`user_id` (the creator) has no `not null` marker. -/
structure McqQuestion where
  id : Nat
  question_text : String
  option_a : String
  option_b : String
  option_c : Option String
  option_d : Option String
  correct_option : Char
  explanation : Option String
  hint : Option String
  difficulty_level : DifficultyLevel
  user_id : Option Nat
deriving DecidableEq, Repr

/-- The check constraint on `mcq_question`:
`correct_option IN ('A', 'B', 'C', 'D')`. -/
def mcqQuestionCheck (q : McqQuestion) : Bool :=
  q.correct_option == 'A' || q.correct_option == 'B' ||
  q.correct_option == 'C' || q.correct_option == 'D'

/-- A row of `mcq_quiz_question_link`; `Primary Key(quiz_id, question_id)`
becomes the `Nodup` hypothesis `linkPKHolds` where a claim needs it. -/
structure QuizQuestionLink where
  quiz_id : Nat
  question_id : Nat
  display_order : Option Nat
deriving DecidableEq, Repr

/-- The primary-key constraint of `mcq_quiz_question_link`: the
(quiz_id, question_id) pairs of the stored link rows are pairwise distinct. -/
def linkPKHolds (links : List QuizQuestionLink) : Prop :=
  (links.map fun l => (l.quiz_id, l.question_id)).Nodup

/-- A row of `quiz_session`.  `current_answers` is the jsonb mapping of
question id to the chosen option letter, kept as an association list;
`session_end`, `score` and `time_taken_seconds` are nullable.  Timestamps are
abstract `Nat` instants. -/
structure QuizSession where
  id : Nat
  user_id : Nat
  quiz_id : Nat
  session_start : Nat
  session_end : Option Nat
  is_completed : Bool
  current_answers : List (Nat × Char)
  score : Option Int
  time_taken_seconds : Option Int
deriving DecidableEq, Repr

/-- The slice of the store that the Quiz Session Engine reads and writes:
question rows, quiz-question link rows, and session rows. -/
structure QuizDB where
  questions : List McqQuestion
  links : List QuizQuestionLink
  sessions : List QuizSession
deriving DecidableEq, Repr

/-- The chosen option recorded in `current_answers` for a question id, if any
(first binding wins, matching jsonb object key lookup). -/
def lookupAnswer (answers : List (Nat × Char)) (qid : Nat) : Option Char :=
  (answers.find? fun p => p.1 == qid).map fun p => p.2

/-- The `mcq_question` row with the given id, if stored. -/
def questionById (questions : List McqQuestion) (qid : Nat) : Option McqQuestion :=
  questions.find? fun q => q.id == qid

/-- Whether the recorded answer for the question linked by `l` equals that
question's `correct_option`. -/
def answerCorrect (questions : List McqQuestion) (answers : List (Nat × Char))
    (l : QuizQuestionLink) : Bool :=
  match questionById questions l.question_id, lookupAnswer answers l.question_id with
  | some q, some a => a == q.correct_option
  | _, _ => false

/-- Modelled from the spec: the score computation of `completeSession`
(no implementation exists in the source).  "Computes `score` by comparing each
answered question's chosen option against `mcq_question.correct_option` for
every question linked to the quiz (via the quiz-question join), awarding one
point per correct answer; unanswered questions score zero — no partial credit,
no negative marking." -/
def computeScore (questions : List McqQuestion) (links : List QuizQuestionLink)
    (quizId : Nat) (answers : List (Nat × Char)) : Int :=
  ((links.filter fun l => l.quiz_id == quizId).countP
    fun l => answerCorrect questions answers l : Nat)

/-- The session row with the given id, if stored. -/
def findSession (db : QuizDB) (sid : Nat) : Option QuizSession :=
  db.sessions.find? fun s => s.id == sid

/-- Replace the session row with id `sid` by `x` (other rows unchanged). -/
def updateSession (db : QuizDB) (sid : Nat) (x : QuizSession) : QuizDB :=
  { db with sessions := db.sessions.map fun s => if s.id == sid then x else s }

/-- Modelled from the spec: `completeSession(session_id)` (no implementation
exists in the source).  Transitions Active to Completed, computes `score` over
the questions linked to the session's quiz, sets
`time_taken_seconds = session_end - session_start`; idempotent: on an
already-completed session it is a no-op returning the existing result rather
than an error.  Returns the updated store together with the resulting session
row (`none` when the session id does not exist). -/
def completeSession (db : QuizDB) (sid : Nat) (now : Nat) :
    QuizDB × Option QuizSession :=
  match findSession db sid with
  | none => (db, none)
  | some sess =>
    if sess.is_completed then
      (db, some sess)
    else
      let sc := computeScore db.questions db.links sess.quiz_id sess.current_answers
      let sess' := { sess with
        is_completed := true
        session_end := some now
        score := some sc
        time_taken_seconds := some ((now : Int) - (sess.session_start : Int)) }
      (updateSession db sid sess', some sess')

/-- A row of `content_version`: polymorphic association
(`content_type`, `content_id`), author, `version_number`, and the jsonb
snapshot payload (kept as an opaque string).  The schema declares
`Unique(content_type, content_id, version_number)`. -/
structure VersionRow where
  content_type : ContentType
  content_id : Nat
  user_id : Nat
  version_number : Nat
  version_data : String
deriving DecidableEq, Repr

/-- The version numbers currently stored for a given ContentRef. -/
def versionsFor (rows : List VersionRow) (ct : ContentType) (cid : Nat) :
    List Nat :=
  (rows.filter fun r => r.content_type == ct && r.content_id == cid).map
    fun r => r.version_number

/-- The current maximum version number for a ContentRef (0 when none). -/
def maxVersion (rows : List VersionRow) (ct : ContentType) (cid : Nat) : Nat :=
  (versionsFor rows ct cid).foldr max 0

/-- Modelled from the spec: `createVersion(ref, author, payload)` (no
implementation exists in the source).  "Determines the next `version_number`
for `ref` by reading the current maximum and incrementing"; executed under a
per-ref serialization guarantee, so the sequential model is faithful. -/
def createVersion (rows : List VersionRow) (ct : ContentType) (cid : Nat)
    (author : Nat) (payload : String) : List VersionRow :=
  { content_type := ct, content_id := cid, user_id := author
    version_number := maxVersion rows ct cid + 1
    version_data := payload } :: rows

/-- One `createVersion` request: target ref, author, payload. -/
structure VersionOp where
  content_type : ContentType
  content_id : Nat
  author : Nat
  payload : String
deriving DecidableEq, Repr

/-- Run a sequence of `createVersion` calls against a version store. -/
def runVersions (rows : List VersionRow) (ops : List VersionOp) :
    List VersionRow :=
  ops.foldl (fun acc op =>
    createVersion acc op.content_type op.content_id op.author op.payload) rows

/-- A row of `content_comment`: author, polymorphic target
(`content_type`, `content_id`), body, optional parent for threading, and the
soft-delete / edited flags. -/
structure CommentRow where
  id : Nat
  author_id : Nat
  content_type : ContentType
  content_id : Nat
  comment_text : String
  parent_comment_id : Option Nat
  is_deleted : Bool
  is_edited : Bool
deriving DecidableEq, Repr

/-- A row of `content_analytics`: `Primary Key(content_type, content_id)`,
integer counters. -/
structure AnalyticsRow where
  content_type : ContentType
  content_id : Nat
  view_count : Int
  like_count : Int
  share_count : Int
  comment_count : Int
deriving DecidableEq, Repr

/-- The Annotation Subsystem slice of the store: comment rows, analytics rows,
and the autoincrement counter backing `content_comment.id`. -/
structure CommentStore where
  comments : List CommentRow
  analytics : List AnalyticsRow
  nextId : Nat
deriving DecidableEq, Repr

/-- The first comment row with the given id, if stored. -/
def findComment : List CommentRow → Nat → Option CommentRow
  | [], _ => none
  | c :: rest, cidn =>
    if c.id == cidn then some c else findComment rest cidn

/-- `comment_count` recorded in analytics for a ContentRef (0 when the
analytics row does not exist yet). -/
def analyticsCommentCount : List AnalyticsRow → ContentType → Nat → Int
  | [], _, _ => 0
  | r :: rest, ct, cid =>
    if r.content_type == ct && r.content_id == cid then r.comment_count
    else analyticsCommentCount rest ct cid

/-- Add `d` to the `comment_count` of the analytics row of a ContentRef,
creating the row (all other counters 0) when absent. -/
def bumpCommentCount (rows : List AnalyticsRow) (ct : ContentType) (cid : Nat)
    (d : Int) : List AnalyticsRow :=
  match rows with
  | [] => [{ content_type := ct, content_id := cid, view_count := 0
             like_count := 0, share_count := 0, comment_count := d }]
  | r :: rest =>
    if r.content_type == ct && r.content_id == cid then
      { r with comment_count := r.comment_count + d } :: rest
    else
      r :: bumpCommentCount rest ct cid d

/-- The number of live (non-deleted) comments stored against a ContentRef. -/
def liveCommentCount : List CommentRow → ContentType → Nat → Nat
  | [], _, _ => 0
  | c :: rest, ct, cid =>
    (if c.content_type == ct && c.content_id == cid && !c.is_deleted
      then 1 else 0) + liveCommentCount rest ct cid

/-- The parent validation step of `postComment`: a missing parent id is
`NotFound`, a parent on a different ContentRef is `ValidationError`. -/
def commentParentCheck (s : CommentStore) (ct : ContentType) (cid : Nat) :
    Option Nat → Except ErrKind Unit
  | none => Except.ok ()
  | some pid =>
    match findComment s.comments pid with
    | none => Except.error ErrKind.NotFound
    | some p =>
      if p.content_type == ct && p.content_id == cid then Except.ok ()
      else Except.error ErrKind.ValidationError

/-- Modelled from the spec: `postComment(author, ref, body, parent?)` (no
implementation exists in the source).  Validates that `parent`, if present,
exists and targets the same ContentRef as the new comment (else
`ValidationError`), inserts the comment with a fresh id, and increments
`ContentAnalytics.comment_count` for the ref atomically with the insert. -/
def postComment (s : CommentStore) (author : Nat) (ct : ContentType)
    (cid : Nat) (body : String) (parent : Option Nat) :
    Except ErrKind (CommentStore × CommentRow) :=
  match commentParentCheck s ct cid parent with
  | Except.error e => Except.error e
  | Except.ok _ =>
    let c : CommentRow :=
      { id := s.nextId, author_id := author, content_type := ct
        content_id := cid, comment_text := body, parent_comment_id := parent
        is_deleted := false, is_edited := false }
    Except.ok
      ({ comments := c :: s.comments
         analytics := bumpCommentCount s.analytics ct cid 1
         nextId := s.nextId + 1 }, c)

/-- Set `is_deleted` on the first stored comment with the given id. -/
def markDeleted (comments : List CommentRow) (cidn : Nat) : List CommentRow :=
  match comments with
  | [] => []
  | c :: rest =>
    if c.id == cidn then { c with is_deleted := true } :: rest
    else c :: markDeleted rest cidn

/-- Modelled from the spec: `softDeleteComment(actor, comment_id)` (no
implementation exists in the source).  Sets the deleted flag and decrements
`comment_count`; a missing comment is `NotFound` and an already-deleted one is
left unchanged (the decrement happens exactly when the flag flips).  The
author-or-moderator permission check is delegated to the external collaborator
and not modelled. -/
def softDeleteComment (s : CommentStore) (cidn : Nat) :
    Except ErrKind CommentStore :=
  match findComment s.comments cidn with
  | none => Except.error ErrKind.NotFound
  | some c =>
    if c.is_deleted then Except.ok s
    else
      Except.ok
        { comments := markDeleted s.comments cidn
          analytics := bumpCommentCount s.analytics c.content_type c.content_id (-1)
          nextId := s.nextId }

/-- One Annotation Subsystem request: a post or a soft delete. -/
inductive CommentOp where
  | post (author : Nat) (ct : ContentType) (cid : Nat) (body : String)
      (parent : Option Nat)
  | softDelete (commentId : Nat)
deriving DecidableEq, Repr

/-- Apply one request; a rejected request leaves the store unchanged. -/
def applyCommentOp (s : CommentStore) (op : CommentOp) : CommentStore :=
  match op with
  | CommentOp.post author ct cid body parent =>
    match postComment s author ct cid body parent with
    | Except.ok (s', _) => s'
    | Except.error _ => s
  | CommentOp.softDelete cidn =>
    match softDeleteComment s cidn with
    | Except.ok s' => s'
    | Except.error _ => s

/-- The empty Annotation Subsystem store. -/
def emptyCommentStore : CommentStore :=
  { comments := [], analytics := [], nextId := 1 }

/-- Run a sequence of Annotation Subsystem requests from a store. -/
def runComments (s : CommentStore) (ops : List CommentOp) : CommentStore :=
  ops.foldl applyCommentOp s

/-- A row of `content_rating`: `Unique(user_id, content_type, content_id)`,
enum-valued `rating`, optional review text. -/
structure RatingRow where
  id : Nat
  user_id : Nat
  content_type : ContentType
  content_id : Nat
  rating : RatingValue
  review_text : Option String
deriving DecidableEq, Repr

/-- The rating store: rating rows plus the autoincrement id counter. -/
structure RatingStore where
  rows : List RatingRow
  nextId : Nat
deriving DecidableEq, Repr

/-- The rating rows stored for a given (user, ContentRef) pair. -/
def ratingsFor (rows : List RatingRow) (uid : Nat) (ct : ContentType)
    (cid : Nat) : List RatingRow :=
  rows.filter fun r =>
    r.user_id == uid && r.content_type == ct && r.content_id == cid

/-- Update the first rating row of the (user, ContentRef) pair in place. -/
def updateRating (rows : List RatingRow) (uid : Nat) (ct : ContentType)
    (cid : Nat) (v : RatingValue) (review : Option String) : List RatingRow :=
  match rows with
  | [] => []
  | r :: rest =>
    if r.user_id == uid && r.content_type == ct && r.content_id == cid then
      { r with rating := v, review_text := review } :: rest
    else
      r :: updateRating rest uid ct cid v review

/-- The first rating row of the (user, ContentRef) pair, if stored. -/
def findRating : List RatingRow → Nat → ContentType → Nat → Option RatingRow
  | [], _, _, _ => none
  | r :: rest, uid, ct, cid =>
    if r.user_id == uid && r.content_type == ct && r.content_id == cid then
      some r
    else findRating rest uid ct cid

/-- Modelled from the spec: `rate(user, ref, value, review?)` (no
implementation exists in the source).  "Upsert semantics keyed by
(user, ref)": when the pair already has a row its value and review are
replaced in place, otherwise a fresh row is inserted. -/
def rate (s : RatingStore) (uid : Nat) (ct : ContentType) (cid : Nat)
    (v : RatingValue) (review : Option String) : RatingStore :=
  match findRating s.rows uid ct cid with
  | none =>
    { rows := { id := s.nextId, user_id := uid, content_type := ct
                content_id := cid, rating := v, review_text := review } :: s.rows
      nextId := s.nextId + 1 }
  | some _ =>
    { rows := updateRating s.rows uid ct cid v review, nextId := s.nextId }

/-- One `rate` request. -/
structure RateOp where
  user_id : Nat
  content_type : ContentType
  content_id : Nat
  value : RatingValue
  review : Option String
deriving DecidableEq, Repr

/-- Run a sequence of `rate` requests from a store. -/
def runRatings (s : RatingStore) (ops : List RateOp) : RatingStore :=
  ops.foldl (fun acc op =>
    rate acc op.user_id op.content_type op.content_id op.value op.review) s

/-- The empty rating store. -/
def emptyRatingStore : RatingStore := { rows := [], nextId := 1 }

/-- A row of `notification`: recipient `user_id`, type, optional related
ContentRef, optional community, optional `actor_id`, message, read flag. -/
structure NotificationRow where
  id : Nat
  user_id : Nat
  notification_type : NotificationType
  related_content_type : Option ContentType
  related_content_id : Option Nat
  related_community_id : Option Nat
  actor_id : Option Nat
  message : String
  is_read : Bool
deriving DecidableEq, Repr

/-- An event handed to the Notification Dispatcher:
(type, recipient, actor?, relatedRef?, message). -/
structure NotificationEvent where
  notification_type : NotificationType
  user_id : Nat
  actor_id : Option Nat
  related_content_type : Option ContentType
  related_content_id : Option Nat
  related_community_id : Option Nat
  message : String
deriving DecidableEq, Repr

/-- The notification store: notification rows plus the id counter. -/
structure NotificationStore where
  rows : List NotificationRow
  nextId : Nat
deriving DecidableEq, Repr

/-- Modelled from the spec: `dispatch(event)` (no implementation exists in the
source).  Creates one notification row for the event's recipient, except that
"a notification is never sent where actor == recipient": a self-directed event
is suppressed and creates zero rows. -/
def dispatch (s : NotificationStore) (e : NotificationEvent) :
    NotificationStore :=
  if e.actor_id = some e.user_id then s
  else
    { rows := { id := s.nextId, user_id := e.user_id
                notification_type := e.notification_type
                related_content_type := e.related_content_type
                related_content_id := e.related_content_id
                related_community_id := e.related_community_id
                actor_id := e.actor_id, message := e.message
                is_read := false } :: s.rows
      nextId := s.nextId + 1 }

/-- Run a sequence of dispatch events from a store. -/
def runDispatch (s : NotificationStore) (events : List NotificationEvent) :
    NotificationStore :=
  events.foldl dispatch s

/-- The empty notification store. -/
def emptyNotificationStore : NotificationStore := { rows := [], nextId := 1 }

/-! ## Concrete scenario data (spec section 8): quiz with 3 questions,
correct options A, B, C; session answers q1 ↦ A, q2 ↦ D, q3 ↦ C. -/

/-- The three questions of the spec scenario, with correct options A, B, C. -/
def scenarioQuestions : List McqQuestion :=
  [ { id := 1, question_text := "Q1", option_a := "a1", option_b := "b1"
      option_c := some "c1", option_d := some "d1", correct_option := 'A'
      explanation := none, hint := none, difficulty_level := DifficultyLevel.Easy
      user_id := some 1 },
    { id := 2, question_text := "Q2", option_a := "a2", option_b := "b2"
      option_c := some "c2", option_d := some "d2", correct_option := 'B'
      explanation := none, hint := none, difficulty_level := DifficultyLevel.Easy
      user_id := some 1 },
    { id := 3, question_text := "Q3", option_a := "a3", option_b := "b3"
      option_c := some "c3", option_d := some "d3", correct_option := 'C'
      explanation := none, hint := none, difficulty_level := DifficultyLevel.Easy
      user_id := some 1 } ]

/-- Link rows putting the three scenario questions into quiz 1. -/
def scenarioLinks : List QuizQuestionLink :=
  [ { quiz_id := 1, question_id := 1, display_order := some 1 },
    { quiz_id := 1, question_id := 2, display_order := some 2 },
    { quiz_id := 1, question_id := 3, display_order := some 3 } ]

/-- The scenario's `current_answers` jsonb value. -/
def scenarioAnswers : List (Nat × Char) := [(1, 'A'), (2, 'D'), (3, 'C')]

/-- An active session on quiz 1 holding the scenario answers. -/
def scenarioSession : QuizSession :=
  { id := 10, user_id := 4, quiz_id := 1, session_start := 100
    session_end := none, is_completed := false
    current_answers := scenarioAnswers, score := none
    time_taken_seconds := none }

/-- The scenario store. -/
def scenarioDB : QuizDB :=
  { questions := scenarioQuestions, links := scenarioLinks
    sessions := [scenarioSession] }

/-- C9: every stored `mcq_question` row satisfies the check constraint
`correct_option IN ('A', 'B', 'C', 'D')`, while `option_c` and `option_d`
are nullable, so the schema alone permits a question whose correct option is
'C' or 'D' even though the corresponding option text is absent. -/
theorem mcq_correct_option_check_constraint :
    (∀ q : McqQuestion, mcqQuestionCheck q = true →
      q.correct_option = 'A' ∨ q.correct_option = 'B' ∨
      q.correct_option = 'C' ∨ q.correct_option = 'D') ∧
    (∃ q : McqQuestion, mcqQuestionCheck q = true ∧
      q.correct_option = 'C' ∧ q.option_c = none) ∧
    (∃ q : McqQuestion, mcqQuestionCheck q = true ∧
      q.correct_option = 'D' ∧ q.option_d = none) := by
  refine ⟨fun q h => ?_,
    ⟨⟨0, "q", "a", "b", none, none, 'C', none, none, DifficultyLevel.Easy, none⟩,
      by decide⟩,
    ⟨⟨0, "q", "a", "b", none, none, 'D', none, none, DifficultyLevel.Easy, none⟩,
      by decide⟩⟩
  simp only [mcqQuestionCheck, Bool.or_eq_true, beq_iff_eq] at h
  tauto

/-- Witness for C9 at a concrete row with `correct_option = 'C'` and
`option_c` null. -/
theorem mcq_correct_option_check_constraint_witness :
    (⟨0, "q", "a", "b", none, none, 'C', none, none, DifficultyLevel.Easy,
      none⟩ : McqQuestion).correct_option = 'A' ∨
    (⟨0, "q", "a", "b", none, none, 'C', none, none, DifficultyLevel.Easy,
      none⟩ : McqQuestion).correct_option = 'B' ∨
    (⟨0, "q", "a", "b", none, none, 'C', none, none, DifficultyLevel.Easy,
      none⟩ : McqQuestion).correct_option = 'C' ∨
    (⟨0, "q", "a", "b", none, none, 'C', none, none, DifficultyLevel.Easy,
      none⟩ : McqQuestion).correct_option = 'D' :=
  mcq_correct_option_check_constraint.1 _ (by decide)

/-- C2 counterexample: the spec's kind set contains quiz_session (and
comment), but `content_type_enum` as declared in the schema lists only file,
summary and quiz, so not every spec kind is a valid ContentRef kind. -/
theorem content_type_enum_missing_kinds :
    "quiz_session" ∈ specContentKinds ∧
    "quiz_session" ∉ content_type_enum ∧
    "comment" ∈ specContentKinds ∧
    "comment" ∉ content_type_enum ∧
    ¬(∀ k ∈ specContentKinds, k ∈ content_type_enum) := by
  refine ⟨by decide, by decide, by decide, by decide, fun h => ?_⟩
  exact absurd (h "quiz_session" (by decide)) (by decide)

/-- C2 amended: exactly file, summary and quiz are valid ContentRef kinds —
every value of the `content_type_enum` column type used by the comment,
version, analytics, rating and notification tables is one of the three
labels, and no value denotes a comment or a quiz session. -/
theorem content_type_enum_exact_kinds :
    (∀ t : ContentType, t.toDbString ∈ content_type_enum) ∧
    "comment" ∉ content_type_enum ∧
    "quiz_session" ∉ content_type_enum ∧
    (∀ t : ContentType,
      t.toDbString ≠ "comment" ∧ t.toDbString ≠ "quiz_session") := by
  refine ⟨fun t => ?_, by decide, by decide, fun t => ?_⟩ <;> cases t <;> decide

/-! ## Quiz Session Engine lemmas -/

/-- A link whose question has no recorded answer never counts as correct. -/
lemma answerCorrect_of_unanswered (questions : List McqQuestion)
    (answers : List (Nat × Char)) (l : QuizQuestionLink)
    (h : lookupAnswer answers l.question_id = none) :
    answerCorrect questions answers l = false := by
  unfold answerCorrect
  rw [h]
  cases questionById questions l.question_id <;> rfl

/-- Recording an answer for a different question does not change a lookup. -/
lemma lookupAnswer_cons_of_ne (answers : List (Nat × Char)) (qid qid' : Nat)
    (c : Char) (h : qid' ≠ qid) :
    lookupAnswer ((qid, c) :: answers) qid' = lookupAnswer answers qid' := by
  unfold lookupAnswer
  rw [List.find?_cons_of_neg _ (by simpa using fun hh => h hh.symm)]

/-- Correctness of a link's answer is unaffected by an answer to another
question. -/
lemma answerCorrect_cons_of_ne (questions : List McqQuestion)
    (answers : List (Nat × Char)) (l : QuizQuestionLink) (qid : Nat) (c : Char)
    (h : l.question_id ≠ qid) :
    answerCorrect questions ((qid, c) :: answers) l =
      answerCorrect questions answers l := by
  unfold answerCorrect
  rw [lookupAnswer_cons_of_ne answers qid l.question_id c h]

/-- With no recorded answers the computed score is zero. -/
lemma computeScore_nil (questions : List McqQuestion)
    (links : List QuizQuestionLink) (quizId : Nat) :
    computeScore questions links quizId [] = 0 := by
  unfold computeScore
  have : ∀ l ∈ links.filter (fun l => l.quiz_id == quizId),
      ¬answerCorrect questions [] l = true := by
    intro l _
    rw [answerCorrect_of_unanswered questions [] l rfl]
    simp
  rw [List.countP_eq_zero.mpr this]
  rfl

/-- An unanswered linked question contributes nothing to the score. -/
lemma computeScore_cons_unanswered (questions : List McqQuestion)
    (l : QuizQuestionLink) (links : List QuizQuestionLink) (quizId : Nat)
    (answers : List (Nat × Char))
    (h : lookupAnswer answers l.question_id = none) :
    computeScore questions (l :: links) quizId answers =
      computeScore questions links quizId answers := by
  unfold computeScore
  rw [List.filter_cons]
  by_cases hq : (l.quiz_id == quizId) = true
  · rw [if_pos hq, List.countP_cons,
      answerCorrect_of_unanswered questions answers l h]
    simp
  · rw [if_neg hq]

/-- Answering a previously unanswered question never lowers the score. -/
lemma computeScore_mono_insert (questions : List McqQuestion)
    (links : List QuizQuestionLink) (quizId : Nat)
    (answers : List (Nat × Char)) (qid : Nat) (c : Char)
    (h : lookupAnswer answers qid = none) :
    computeScore questions links quizId answers ≤
      computeScore questions links quizId ((qid, c) :: answers) := by
  unfold computeScore
  have hmono : ∀ x ∈ links.filter (fun l => l.quiz_id == quizId),
      answerCorrect questions answers x = true →
      answerCorrect questions ((qid, c) :: answers) x = true := by
    intro x _ hx
    by_cases hxq : x.question_id = qid
    · rw [answerCorrect_of_unanswered questions answers x (hxq ▸ h)] at hx
      cases hx
    · rw [answerCorrect_cons_of_ne questions answers x qid c hxq]
      exact hx
  exact_mod_cast List.countP_mono_left hmono

/-- The score is never negative. -/
lemma computeScore_nonneg (questions : List McqQuestion)
    (links : List QuizQuestionLink) (quizId : Nat)
    (answers : List (Nat × Char)) :
    0 ≤ computeScore questions links quizId answers :=
  Int.natCast_nonneg _

/-- Replacing the session row with id `sid` makes the replacement the row
found for `sid`, provided some row with that id was found before and the
replacement keeps the id. -/
lemma find?_map_update (l : List QuizSession) (sid : Nat) (x sess : QuizSession)
    (hx : x.id = sid) (h : l.find? (fun s => s.id == sid) = some sess) :
    (l.map fun s => if s.id == sid then x else s).find?
      (fun s => s.id == sid) = some x := by
  induction l with
  | nil => cases h
  | cons a t ih =>
    by_cases ha : (a.id == sid) = true
    · simp only [List.map_cons, if_pos ha]
      exact List.find?_cons_of_pos _ (by simpa using hx)
    · rw [@List.find?_cons_of_neg _ (fun s => s.id == sid) a t ha] at h
      simp only [List.map_cons, if_neg ha]
      rw [@List.find?_cons_of_neg _ (fun s => s.id == sid) a
        (t.map fun s => if (s.id == sid) = true then x else s) ha]
      exact ih h

/-- `findSession` after `updateSession`, given the session existed. -/
lemma findSession_updateSession (db : QuizDB) (sid : Nat)
    (x sess : QuizSession) (hx : x.id = sid)
    (h : findSession db sid = some sess) :
    findSession (updateSession db sid x) sid = some x :=
  find?_map_update db.sessions sid x sess hx h

/-- `updateSession` leaves questions and links untouched. -/
lemma updateSession_questions (db : QuizDB) (sid : Nat) (x : QuizSession) :
    (updateSession db sid x).questions = db.questions ∧
    (updateSession db sid x).links = db.links := ⟨rfl, rfl⟩

/-- Unfolding `completeSession` on an active session. -/
lemma completeSession_active (db : QuizDB) (sid now : Nat)
    (sess : QuizSession) (h : findSession db sid = some sess)
    (hc : sess.is_completed = false) :
    completeSession db sid now =
      (updateSession db sid { sess with
        is_completed := true
        session_end := some now
        score := some (computeScore db.questions db.links sess.quiz_id
          sess.current_answers)
        time_taken_seconds :=
          some ((now : Int) - (sess.session_start : Int)) },
       some { sess with
        is_completed := true
        session_end := some now
        score := some (computeScore db.questions db.links sess.quiz_id
          sess.current_answers)
        time_taken_seconds :=
          some ((now : Int) - (sess.session_start : Int)) }) := by
  unfold completeSession
  rw [h]
  simp [hc]

/-- C1: `completeSession` sets `score` to the number of question ids in
`current_answers` whose chosen option equals the linked question's
`correct_option`, counting over exactly the questions linked to the session's
quiz; an unanswered linked question contributes 0, no answer ever subtracts
from the score (the score is non-negative and answering a fresh question
never lowers it), and on the spec scenario (3 questions with correct options
A, B, C and answers q1 ↦ A, q2 ↦ D, q3 ↦ C) the computed score is 2. -/
theorem completeSession_score_spec :
    (∀ db sid now sess, findSession db sid = some sess →
      sess.is_completed = false →
      ∃ sess', findSession (completeSession db sid now).1 sid = some sess' ∧
        (completeSession db sid now).2 = some sess' ∧
        sess'.score = some (computeScore db.questions db.links sess.quiz_id
          sess.current_answers)) ∧
    (∀ questions links quizId, computeScore questions links quizId [] = 0) ∧
    (∀ questions l links quizId answers,
      lookupAnswer answers l.question_id = none →
      computeScore questions (l :: links) quizId answers =
        computeScore questions links quizId answers) ∧
    (∀ questions links quizId answers,
      0 ≤ computeScore questions links quizId answers) ∧
    (∀ questions links quizId answers qid c,
      lookupAnswer answers qid = none →
      computeScore questions links quizId answers ≤
        computeScore questions links quizId ((qid, c) :: answers)) ∧
    computeScore scenarioQuestions scenarioLinks 1 scenarioAnswers = 2 := by
  refine ⟨?_, computeScore_nil, computeScore_cons_unanswered,
    computeScore_nonneg, computeScore_mono_insert, by decide⟩
  intro db sid now sess h hc
  have hid : sess.id = sid := by simpa using List.find?_some h
  rw [completeSession_active db sid now sess h hc]
  exact ⟨_, findSession_updateSession db sid _ sess hid h, rfl, rfl⟩

/-- Witness for C1: completing the scenario session stores score 2. -/
theorem completeSession_score_spec_witness :
    ∃ sess', findSession (completeSession scenarioDB 10 160).1 10 = some sess' ∧
      (completeSession scenarioDB 10 160).2 = some sess' ∧
      sess'.score = some (computeScore scenarioDB.questions scenarioDB.links
        scenarioSession.quiz_id scenarioSession.current_answers) :=
  completeSession_score_spec.1 scenarioDB 10 160 scenarioSession
    (by decide) (by decide)

/-- C5: `completeSession` is idempotent — a second call on the resulting
store is a no-op returning the existing result (never an error): the store,
the returned score, `time_taken_seconds` and terminal state all coincide with
the first call's. -/
theorem completeSession_idempotent (db : QuizDB) (sid now1 now2 : Nat) :
    completeSession (completeSession db sid now1).1 sid now2 =
      completeSession db sid now1 := by
  cases h : findSession db sid with
  | none =>
    have h1 : completeSession db sid now1 = (db, none) := by
      unfold completeSession
      rw [h]
    rw [h1]
    show completeSession db sid now2 = (db, none)
    unfold completeSession
    rw [h]
  | some sess =>
    by_cases hc : sess.is_completed = true
    · have h1 : completeSession db sid now1 = (db, some sess) := by
        unfold completeSession
        rw [h]
        simp [hc]
      rw [h1]
      show completeSession db sid now2 = (db, some sess)
      unfold completeSession
      rw [h]
      simp [hc]
    · have hc' : sess.is_completed = false := by
        cases hcc : sess.is_completed
        · rfl
        · exact absurd hcc hc
      have hid : sess.id = sid := by simpa using List.find?_some h
      set sess2 : QuizSession := { sess with
        is_completed := true
        session_end := some now1
        score := some (computeScore db.questions db.links sess.quiz_id
          sess.current_answers)
        time_taken_seconds :=
          some ((now1 : Int) - (sess.session_start : Int)) } with hsess2
      have h1 : completeSession db sid now1 =
          (updateSession db sid sess2, some sess2) :=
        completeSession_active db sid now1 sess h hc'
      have h2 : findSession (updateSession db sid sess2) sid = some sess2 :=
        findSession_updateSession db sid sess2 sess hid h
      rw [h1]
      show completeSession (updateSession db sid sess2) sid now2 =
        (updateSession db sid sess2, some sess2)
      unfold completeSession
      rw [h2]
      simp [hsess2]

/-- C10: under the primary key of `mcq_quiz_question_link` (no duplicate
(quiz_id, question_id) pairs) the question ids linked to a quiz are pairwise
distinct, and a session's computed score never exceeds the number of distinct
questions linked to its quiz. -/
theorem link_pk_bounds_score :
    ∀ questions links quizId answers, linkPKHolds links →
      ((links.filter fun l => l.quiz_id == quizId).map
        fun l => l.question_id).Nodup ∧
      computeScore questions links quizId answers ≤
        (((links.filter fun l => l.quiz_id == quizId).map
          fun l => l.question_id).length : Int) := by
  intro questions links quizId answers h
  constructor
  · have hsub : ((links.filter fun l => l.quiz_id == quizId).map
        fun l => (l.quiz_id, l.question_id)).Nodup :=
      List.Nodup.sublist
        (List.Sublist.map _ (List.filter_sublist links)) h
    have hall : ∀ x ∈ links.filter fun l => l.quiz_id == quizId,
        x.quiz_id = quizId := by
      intro x hx
      simpa using (List.mem_filter.mp hx).2
    have key : ∀ fl : List QuizQuestionLink,
        (∀ x ∈ fl, x.quiz_id = quizId) →
        (fl.map fun l => (l.quiz_id, l.question_id)).Nodup →
        (fl.map fun l => l.question_id).Nodup := by
      intro fl
      induction fl with
      | nil => simp
      | cons a t ih =>
        intro ha hnd
        simp only [List.map_cons, List.nodup_cons] at hnd ⊢
        refine ⟨?_, ih (fun x hx => ha x (List.mem_cons_of_mem _ hx)) hnd.2⟩
        intro hmem
        rcases List.mem_map.mp hmem with ⟨b, hb, hbq⟩
        apply hnd.1
        apply List.mem_map.mpr
        refine ⟨b, hb, ?_⟩
        rw [ha a (List.mem_cons_self a t), ha b (List.mem_cons_of_mem _ hb),
          hbq]
    exact key _ hall hsub
  · unfold computeScore
    rw [List.length_map]
    exact_mod_cast List.countP_le_length _

/-- Witness for C10 at the scenario link table. -/
theorem link_pk_bounds_score_witness :
    ((scenarioLinks.filter fun l => l.quiz_id == 1).map
      fun l => l.question_id).Nodup ∧
    computeScore scenarioQuestions scenarioLinks 1 scenarioAnswers ≤
      (((scenarioLinks.filter fun l => l.quiz_id == 1).map
        fun l => l.question_id).length : Int) :=
  link_pk_bounds_score scenarioQuestions scenarioLinks 1 scenarioAnswers
    (by unfold linkPKHolds; decide)

/-! ## Versioning Engine lemmas -/

/-- The list `[n, n-1, ..., 1]`: the version numbers of a ref that has seen
`n` createVersion calls, newest first. -/
def countdown : Nat → List Nat
  | 0 => []
  | n + 1 => (n + 1) :: countdown n

lemma mem_countdown {k : Nat} : ∀ {n : Nat}, k ∈ countdown n ↔ 1 ≤ k ∧ k ≤ n := by
  intro n
  induction n with
  | zero =>
    simp only [countdown, List.not_mem_nil, false_iff]
    omega
  | succ n ih =>
    simp only [countdown, List.mem_cons, ih]
    omega

lemma countdown_nodup (n : Nat) : (countdown n).Nodup := by
  induction n with
  | zero => simp [countdown]
  | succ n ih =>
    simp only [countdown, List.nodup_cons, mem_countdown]
    exact ⟨by omega, ih⟩

lemma countdown_length (n : Nat) : (countdown n).length = n := by
  induction n with
  | zero => rfl
  | succ n ih => simp [countdown, ih]

lemma countdown_foldr_max (n : Nat) : (countdown n).foldr max 0 = n := by
  induction n with
  | zero => rfl
  | succ n ih =>
    show max (n + 1) ((countdown n).foldr max 0) = n + 1
    rw [ih]
    omega

/-- Version-store sanity: every ref's stored version numbers are
`[n, ..., 1]` for some `n`. -/
def versionsGood (rows : List VersionRow) : Prop :=
  ∀ ct cid, ∃ n, versionsFor rows ct cid = countdown n

/-- How `createVersion` changes the stored numbers of each ref. -/
lemma versionsFor_createVersion (rows : List VersionRow) (ct : ContentType)
    (cid : Nat) (author : Nat) (payload : String) (ct' : ContentType)
    (cid' : Nat) :
    versionsFor (createVersion rows ct cid author payload) ct' cid' =
      if ct = ct' ∧ cid = cid' then
        (maxVersion rows ct cid + 1) :: versionsFor rows ct' cid'
      else versionsFor rows ct' cid' := by
  unfold createVersion versionsFor
  rw [List.filter_cons]
  by_cases h1 : ct = ct'
  · by_cases h2 : cid = cid'
    · subst h1
      subst h2
      simp
    · simp [h1, h2]
  · simp [h1]

lemma createVersion_good (rows : List VersionRow) (ct : ContentType)
    (cid : Nat) (author : Nat) (payload : String) (hg : versionsGood rows) :
    versionsGood (createVersion rows ct cid author payload) := by
  intro ct' cid'
  rw [versionsFor_createVersion]
  by_cases h : ct = ct' ∧ cid = cid'
  · rw [if_pos h]
    obtain ⟨h1, h2⟩ := h
    subst h1
    subst h2
    obtain ⟨n, hn⟩ := hg ct cid
    have hmax : maxVersion rows ct cid = n := by
      unfold maxVersion
      rw [hn, countdown_foldr_max]
    rw [hmax, hn]
    exact ⟨n + 1, rfl⟩
  · rw [if_neg h]
    exact hg ct' cid'

lemma runVersions_good : ∀ (ops : List VersionOp) (rows : List VersionRow),
    versionsGood rows → versionsGood (runVersions rows ops) := by
  intro ops
  induction ops with
  | nil => exact fun rows h => h
  | cons op t ih =>
    intro rows h
    exact ih _ (createVersion_good rows op.content_type op.content_id
      op.author op.payload h)

/-- C3: after any sequence of `createVersion` calls starting from an empty
version store, the version numbers stored for each ContentRef are pairwise
distinct (so `(content_type, content_id, version_number)` is unique) and are
exactly the integers 1..n where n is how many versions that ref has: numbers
start at 1, increase by 1, and show no gaps and no reuse. -/
theorem createVersion_numbers_gapless :
    ∀ (ops : List VersionOp) (ct : ContentType) (cid : Nat),
      (versionsFor (runVersions [] ops) ct cid).Nodup ∧
      (∀ k, k ∈ versionsFor (runVersions [] ops) ct cid ↔
        1 ≤ k ∧ k ≤ (versionsFor (runVersions [] ops) ct cid).length) := by
  intro ops ct cid
  obtain ⟨n, hn⟩ := runVersions_good ops []
    (fun ct cid => ⟨0, rfl⟩) ct cid
  rw [hn, countdown_length]
  exact ⟨countdown_nodup n, fun k => mem_countdown⟩

/-- A concrete interleaved createVersion workload for the C3 witness. -/
def demoVersionOps : List VersionOp :=
  [ { content_type := ContentType.quiz, content_id := 5, author := 1
      payload := "v1" },
    { content_type := ContentType.summary, content_id := 2, author := 3
      payload := "s1" },
    { content_type := ContentType.quiz, content_id := 5, author := 1
      payload := "v2" } ]

/-- Witness for C3: after two creations on the quiz-5 ref (with an unrelated
creation interleaved), version number 2 is stored for it. -/
theorem createVersion_numbers_gapless_witness :
    2 ∈ versionsFor (runVersions [] demoVersionOps) ContentType.quiz 5 :=
  ((createVersion_numbers_gapless demoVersionOps ContentType.quiz 5).2 2).mpr
    (by decide)

/-! ## Annotation Subsystem lemmas: comment counters -/

/-- Reading `comment_count` after a bump: the bumped ref's count moves by
`d`, every other ref's count is unchanged. -/
lemma analyticsCommentCount_bump :
    ∀ (rows : List AnalyticsRow) (ct : ContentType) (cid : Nat) (d : Int)
      (ct' : ContentType) (cid' : Nat),
      analyticsCommentCount (bumpCommentCount rows ct cid d) ct' cid' =
        analyticsCommentCount rows ct' cid' +
          (if ct = ct' ∧ cid = cid' then d else 0) := by
  intro rows ct cid d ct' cid'
  induction rows with
  | nil =>
    by_cases h1 : ct = ct' <;> by_cases h2 : cid = cid' <;>
      simp [bumpCommentCount, analyticsCommentCount, h1, h2]
  | cons r rest ih =>
    simp only [bumpCommentCount]
    by_cases hr : (r.content_type == ct && r.content_id == cid) = true
    · rw [if_pos hr]
      rw [Bool.and_eq_true, beq_iff_eq, beq_iff_eq] at hr
      obtain ⟨hr1, hr2⟩ := hr
      by_cases h1 : ct = ct' <;> by_cases h2 : cid = cid' <;>
        simp [analyticsCommentCount, hr1, hr2, h1, h2]
    · rw [if_neg hr]
      simp only [analyticsCommentCount]
      by_cases hread : (r.content_type == ct' && r.content_id == cid') = true
      · rw [if_pos hread, if_pos hread]
        have hne : ¬(ct = ct' ∧ cid = cid') := by
          rintro ⟨rfl, rfl⟩
          exact hr hread
        rw [if_neg hne]
        simp
      · rw [if_neg hread, if_neg hread]
        exact ih

/-- Soft-deleting a live comment removes exactly its own ref's contribution
from the live count. -/
lemma liveCommentCount_markDeleted :
    ∀ (comments : List CommentRow) (i : Nat) (c : CommentRow)
      (ct : ContentType) (cid : Nat),
      findComment comments i = some c → c.is_deleted = false →
      liveCommentCount (markDeleted comments i) ct cid +
        (if c.content_type = ct ∧ c.content_id = cid then 1 else 0) =
        liveCommentCount comments ct cid := by
  intro comments i
  induction comments with
  | nil => intro c ct cid h; cases h
  | cons a rest ih =>
    intro c ct cid h hdel
    by_cases ha : (a.id == i) = true
    · simp only [findComment, if_pos ha] at h
      injection h with h
      subst h
      simp only [markDeleted, if_pos ha, liveCommentCount]
      by_cases h1 : a.content_type = ct <;> by_cases h2 : a.content_id = cid <;>
        simp [h1, h2, hdel] <;> omega
    · simp only [findComment, if_neg ha] at h
      simp only [markDeleted, if_neg ha, liveCommentCount]
      have := ih c ct cid h hdel
      omega

/-- Every comment surviving `markDeleted` descends from a stored comment with
the same id, target ref and parent. -/
lemma mem_of_mem_markDeleted :
    ∀ (comments : List CommentRow) (i : Nat) (c' : CommentRow),
      c' ∈ markDeleted comments i →
      ∃ c, c ∈ comments ∧ c'.id = c.id ∧
        c'.content_type = c.content_type ∧ c'.content_id = c.content_id ∧
        c'.parent_comment_id = c.parent_comment_id := by
  intro comments i
  induction comments with
  | nil => intro c' h; cases h
  | cons a rest ih =>
    intro c' h
    by_cases ha : (a.id == i) = true
    · simp only [markDeleted, if_pos ha, List.mem_cons] at h
      rcases h with h | h
      · exact ⟨a, List.mem_cons_self a rest, by subst h; exact rfl,
          by subst h; exact rfl, by subst h; exact rfl, by subst h; exact rfl⟩
      · exact ⟨c', List.mem_cons_of_mem _ h, rfl, rfl, rfl, rfl⟩
    · simp only [markDeleted, if_neg ha, List.mem_cons] at h
      rcases h with h | h
      · exact ⟨a, List.mem_cons_self a rest, by rw [h], by rw [h], by rw [h],
          by rw [h]⟩
      · rcases ih c' h with ⟨c, hc, h1, h2, h3, h4⟩
        exact ⟨c, List.mem_cons_of_mem _ hc, h1, h2, h3, h4⟩

/-- Every stored comment survives `markDeleted` with its id, target ref and
parent intact (only `is_deleted` may change). -/
lemma mem_markDeleted_of_mem :
    ∀ (comments : List CommentRow) (i : Nat) (c : CommentRow),
      c ∈ comments →
      ∃ c', c' ∈ markDeleted comments i ∧ c'.id = c.id ∧
        c'.content_type = c.content_type ∧ c'.content_id = c.content_id ∧
        c'.parent_comment_id = c.parent_comment_id := by
  intro comments i
  induction comments with
  | nil => intro c h; cases h
  | cons a rest ih =>
    intro c h
    rcases List.mem_cons.mp h with h | h
    · by_cases ha : (a.id == i) = true
      · refine ⟨{ a with is_deleted := true }, ?_, ?_, ?_, ?_, ?_⟩
        · simp only [markDeleted, if_pos ha]
          exact List.mem_cons_self _ _
        · rw [h]
        · rw [h]
        · rw [h]
        · rw [h]
      · refine ⟨a, ?_, by rw [h], by rw [h], by rw [h], by rw [h]⟩
        simp only [markDeleted, if_neg ha]
        exact List.mem_cons_self _ _
    · by_cases ha : (a.id == i) = true
      · refine ⟨c, ?_, rfl, rfl, rfl, rfl⟩
        simp only [markDeleted, if_pos ha]
        exact List.mem_cons_of_mem _ h
      · rcases ih c h with ⟨c', hc', h1, h2, h3, h4⟩
        refine ⟨c', ?_, h1, h2, h3, h4⟩
        simp only [markDeleted, if_neg ha]
        exact List.mem_cons_of_mem _ hc'

/-- A successful `postComment` inserts exactly one fresh live comment and
bumps the target's `comment_count` by one. -/
lemma postComment_ok_shape (s : CommentStore) (author : Nat)
    (ct : ContentType) (cid : Nat) (body : String) (parent : Option Nat)
    (s' : CommentStore) (c : CommentRow)
    (h : postComment s author ct cid body parent = Except.ok (s', c)) :
    c = { id := s.nextId, author_id := author, content_type := ct
          content_id := cid, comment_text := body
          parent_comment_id := parent, is_deleted := false
          is_edited := false } ∧
    s' = { comments := c :: s.comments
           analytics := bumpCommentCount s.analytics ct cid 1
           nextId := s.nextId + 1 } := by
  unfold postComment at h
  cases hv : commentParentCheck s ct cid parent with
  | error e =>
    rw [hv] at h
    exact Except.noConfusion h
  | ok u =>
    rw [hv] at h
    injection h with h2
    injection h2 with hA hB
    subst hA
    subst hB
    exact ⟨rfl, rfl⟩

/-- A successful `postComment` with a parent found that parent targeting the
same ContentRef. -/
lemma postComment_ok_parent (s : CommentStore) (author : Nat)
    (ct : ContentType) (cid : Nat) (body : String) (pid : Nat)
    (s' : CommentStore) (c : CommentRow)
    (h : postComment s author ct cid body (some pid) = Except.ok (s', c)) :
    ∃ p, findComment s.comments pid = some p ∧ p.content_type = ct ∧
      p.content_id = cid := by
  unfold postComment at h
  cases hf : findComment s.comments pid with
  | none =>
    have hv : commentParentCheck s ct cid (some pid) =
        Except.error ErrKind.NotFound := by
      simp only [commentParentCheck, hf]
    rw [hv] at h
    exact Except.noConfusion h
  | some p =>
    by_cases hpp : (p.content_type == ct && p.content_id == cid) = true
    · rw [Bool.and_eq_true, beq_iff_eq, beq_iff_eq] at hpp
      exact ⟨p, rfl, hpp.1, hpp.2⟩
    · have hv : commentParentCheck s ct cid (some pid) =
          Except.error ErrKind.ValidationError := by
        simp only [commentParentCheck, hf]
        rw [if_neg hpp]
      rw [hv] at h
      exact Except.noConfusion h

/-- `findComment` only returns stored rows, and the row it returns carries
the searched id. -/
lemma findComment_mem :
    ∀ (comments : List CommentRow) (i : Nat) (c : CommentRow),
      findComment comments i = some c → c ∈ comments ∧ c.id = i := by
  intro comments i
  induction comments with
  | nil => intro c h; cases h
  | cons a rest ih =>
    intro c h
    by_cases ha : (a.id == i) = true
    · simp only [findComment, if_pos ha] at h
      injection h with h
      subst h
      exact ⟨List.mem_cons_self a rest, by simpa using ha⟩
    · simp only [findComment, if_neg ha] at h
      rcases ih c h with ⟨hc, hid⟩
      exact ⟨List.mem_cons_of_mem _ hc, hid⟩

/-- Invariant of C4: the analytics `comment_count` of every ContentRef equals
its live comment count. -/
def commentCountsAgree (s : CommentStore) : Prop :=
  ∀ ct cid, analyticsCommentCount s.analytics ct cid =
    (liveCommentCount s.comments ct cid : Int)

/-- Invariant of C7: every stored comment with a parent targets the same
ContentRef as its parent. -/
def parentsConsistent (comments : List CommentRow) : Prop :=
  ∀ c ∈ comments, ∀ pid, c.parent_comment_id = some pid →
    ∃ p, p ∈ comments ∧ p.id = pid ∧ p.content_type = c.content_type ∧
      p.content_id = c.content_id

lemma applyCommentOp_countsAgree (s : CommentStore) (op : CommentOp)
    (h : commentCountsAgree s) : commentCountsAgree (applyCommentOp s op) := by
  cases op with
  | post author ct cid body parent =>
    cases hpc : postComment s author ct cid body parent with
    | error e => simpa [applyCommentOp, hpc] using h
    | ok r =>
      obtain ⟨s', c⟩ := r
      obtain ⟨hc, hs'⟩ := postComment_ok_shape s author ct cid body parent
        s' c hpc
      intro ct' cid'
      simp only [applyCommentOp, hpc, hs', analyticsCommentCount_bump]
      rw [h ct' cid', hc]
      simp only [liveCommentCount]
      by_cases h1 : ct = ct' <;> by_cases h2 : cid = cid' <;>
        simp [h1, h2] <;> omega
  | softDelete cidn =>
    cases hf : findComment s.comments cidn with
    | none => simpa [applyCommentOp, softDeleteComment, hf] using h
    | some c =>
      by_cases hdel : c.is_deleted = true
      · simpa [applyCommentOp, softDeleteComment, hf, hdel] using h
      · have hdel' : c.is_deleted = false := by
          cases hcc : c.is_deleted
          · rfl
          · exact absurd hcc hdel
        intro ct' cid'
        have hs' : applyCommentOp s (CommentOp.softDelete cidn) =
            { comments := markDeleted s.comments cidn
              analytics := bumpCommentCount s.analytics c.content_type
                c.content_id (-1)
              nextId := s.nextId } := by
          simp [applyCommentOp, softDeleteComment, hf, hdel']
        rw [hs']
        simp only [analyticsCommentCount_bump]
        rw [h ct' cid']
        have hlive := liveCommentCount_markDeleted s.comments cidn c ct' cid'
          hf hdel'
        by_cases hm : c.content_type = ct' ∧ c.content_id = cid'
        · rw [if_pos hm]
          rw [if_pos hm] at hlive
          omega
        · rw [if_neg hm]
          rw [if_neg hm] at hlive
          omega

lemma applyCommentOp_parentsConsistent (s : CommentStore) (op : CommentOp)
    (h : parentsConsistent s.comments) :
    parentsConsistent (applyCommentOp s op).comments := by
  cases op with
  | post author ct cid body parent =>
    cases hpc : postComment s author ct cid body parent with
    | error e => simpa [applyCommentOp, hpc] using h
    | ok r =>
      obtain ⟨s', c⟩ := r
      obtain ⟨hc, hs'⟩ := postComment_ok_shape s author ct cid body parent
        s' c hpc
      simp only [applyCommentOp, hpc, hs']
      intro c0 hc0 pid hpid
      rcases List.mem_cons.mp hc0 with hceq | hmem
      · -- the new comment: its parent was validated at insert time
        have hpar : parent = some pid := by
          rw [hceq, hc] at hpid
          exact hpid
        subst hpar
        obtain ⟨p, hfind, hp1, hp2⟩ := postComment_ok_parent s author ct cid
          body pid s' c hpc
        obtain ⟨hpmem, hpid2⟩ := findComment_mem s.comments pid p hfind
        refine ⟨p, List.mem_cons_of_mem _ hpmem, hpid2, ?_, ?_⟩
        · rw [hceq, hc]
          exact hp1
        · rw [hceq, hc]
          exact hp2
      · obtain ⟨p, hpmem, h1, h2, h3⟩ := h c0 hmem pid hpid
        exact ⟨p, List.mem_cons_of_mem _ hpmem, h1, h2, h3⟩
  | softDelete cidn =>
    cases hf : findComment s.comments cidn with
    | none => simpa [applyCommentOp, softDeleteComment, hf] using h
    | some c =>
      by_cases hdel : c.is_deleted = true
      · simpa [applyCommentOp, softDeleteComment, hf, hdel] using h
      · have hdel' : c.is_deleted = false := by
          cases hcc : c.is_deleted
          · rfl
          · exact absurd hcc hdel
        have hs' : (applyCommentOp s (CommentOp.softDelete cidn)).comments =
            markDeleted s.comments cidn := by
          simp [applyCommentOp, softDeleteComment, hf, hdel']
        rw [hs']
        intro c0 hc0 pid hpid
        obtain ⟨c1, hc1, e1, e2, e3, e4⟩ :=
          mem_of_mem_markDeleted s.comments cidn c0 hc0
        rw [e4] at hpid
        obtain ⟨p, hpmem, h1, h2, h3⟩ := h c1 hc1 pid hpid
        obtain ⟨p', hp', f1, f2, f3, f4⟩ :=
          mem_markDeleted_of_mem s.comments cidn p hpmem
        exact ⟨p', hp', by rw [f1, h1], by rw [f2, h2, e2],
          by rw [f3, h3, e3]⟩

lemma runComments_inv : ∀ (ops : List CommentOp) (s : CommentStore),
    commentCountsAgree s → parentsConsistent s.comments →
    commentCountsAgree (runComments s ops) ∧
    parentsConsistent (runComments s ops).comments := by
  intro ops
  induction ops with
  | nil => exact fun s h1 h2 => ⟨h1, h2⟩
  | cons op t ih =>
    intro s h1 h2
    exact ih _ (applyCommentOp_countsAgree s op h1)
      (applyCommentOp_parentsConsistent s op h2)

/-- C4: after any sequence of postComment / softDeleteComment operations from
an empty store, the analytics `comment_count` of every ContentRef equals the
number of stored non-deleted comments targeting that ref. -/
theorem comment_count_matches_live_comments :
    ∀ (ops : List CommentOp) (ct : ContentType) (cid : Nat),
      analyticsCommentCount (runComments emptyCommentStore ops).analytics
          ct cid =
        (liveCommentCount (runComments emptyCommentStore ops).comments
          ct cid : Int) := by
  intro ops ct cid
  exact (runComments_inv ops emptyCommentStore
    (fun _ _ => rfl) (fun c hc => absurd hc (List.not_mem_nil c))).1 ct cid

/-- C7: a `postComment` whose parent targets a different ContentRef is
rejected with `ValidationError` and inserts nothing, and consequently every
stored comment with a parent targets the same (content_type, content_id) as
its parent after any operation sequence. -/
theorem postComment_thread_integrity :
    (∀ (s : CommentStore) (author : Nat) (ct : ContentType) (cid : Nat)
      (body : String) (pid : Nat) (p : CommentRow),
      findComment s.comments pid = some p →
      ¬(p.content_type = ct ∧ p.content_id = cid) →
      postComment s author ct cid body (some pid) =
        Except.error ErrKind.ValidationError ∧
      applyCommentOp s (CommentOp.post author ct cid body (some pid)) = s) ∧
    (∀ (ops : List CommentOp) (c : CommentRow),
      c ∈ (runComments emptyCommentStore ops).comments →
      ∀ pid, c.parent_comment_id = some pid →
      ∃ p, p ∈ (runComments emptyCommentStore ops).comments ∧ p.id = pid ∧
        p.content_type = c.content_type ∧ p.content_id = c.content_id) := by
  constructor
  · intro s author ct cid body pid p hf hne
    have hb : (p.content_type == ct && p.content_id == cid) = false := by
      by_cases h1 : p.content_type = ct
      · by_cases h2 : p.content_id = cid
        · exact absurd ⟨h1, h2⟩ hne
        · simp [h1, h2]
      · simp [h1]
    have herr : postComment s author ct cid body (some pid) =
        Except.error ErrKind.ValidationError := by
      simp [postComment, commentParentCheck, hf, hb]
    exact ⟨herr, by simp [applyCommentOp, herr]⟩
  · intro ops
    exact (runComments_inv ops emptyCommentStore
      (fun _ _ => rfl) (fun c hc => absurd hc (List.not_mem_nil c))).2

/-- A one-comment store on the file-1 ref, for the C7 witness. -/
def demoCommentStore : CommentStore :=
  { comments := [{ id := 1, author_id := 7, content_type := ContentType.file
                   content_id := 1, comment_text := "hi"
                   parent_comment_id := none, is_deleted := false
                   is_edited := false }]
    analytics := [{ content_type := ContentType.file, content_id := 1
                    view_count := 0, like_count := 0, share_count := 0
                    comment_count := 1 }]
    nextId := 2 }

/-- Witness for C7: replying under a comment that lives on file 1 while
targeting quiz 2 is rejected with ValidationError and changes nothing. -/
theorem postComment_thread_integrity_witness :
    postComment demoCommentStore 8 ContentType.quiz 2 "bad" (some 1) =
      Except.error ErrKind.ValidationError ∧
    applyCommentOp demoCommentStore
      (CommentOp.post 8 ContentType.quiz 2 "bad" (some 1)) =
      demoCommentStore :=
  postComment_thread_integrity.1 demoCommentStore 8 ContentType.quiz 2 "bad" 1
    { id := 1, author_id := 7, content_type := ContentType.file
      content_id := 1, comment_text := "hi", parent_comment_id := none
      is_deleted := false, is_edited := false }
    (by decide) (by decide)

/-! ## Rating upsert lemmas -/

/-- If no row of the pair is found, no stored row matches the pair. -/
lemma findRating_none_ratingsFor :
    ∀ (rows : List RatingRow) (uid : Nat) (ct : ContentType) (cid : Nat),
      findRating rows uid ct cid = none → ratingsFor rows uid ct cid = [] := by
  intro rows uid ct cid
  induction rows with
  | nil => intro _; rfl
  | cons r rest ih =>
    intro h
    by_cases hr : (r.user_id == uid && r.content_type == ct &&
        r.content_id == cid) = true
    · simp only [findRating, if_pos hr] at h
      exact Option.noConfusion h
    · simp only [findRating, if_neg hr] at h
      simp only [ratingsFor, List.filter_cons, if_neg hr]
      exact ih h

/-- `updateRating` keeps, for every key, the number of matching rows. -/
lemma ratingsFor_updateRating :
    ∀ (rows : List RatingRow) (uid : Nat) (ct : ContentType) (cid : Nat)
      (v : RatingValue) (rv : Option String) (uid' : Nat)
      (ct' : ContentType) (cid' : Nat),
      (ratingsFor (updateRating rows uid ct cid v rv) uid' ct' cid').length =
        (ratingsFor rows uid' ct' cid').length := by
  intro rows uid ct cid v rv uid' ct' cid'
  induction rows with
  | nil => rfl
  | cons r rest ih =>
    by_cases hr : (r.user_id == uid && r.content_type == ct &&
        r.content_id == cid) = true
    · simp only [updateRating, if_pos hr, ratingsFor, List.filter_cons]
      by_cases hread : (r.user_id == uid' && r.content_type == ct' &&
          r.content_id == cid') = true
      · rw [if_pos hread, if_pos hread]
        simp
      · rw [if_neg hread, if_neg hread]
    · simp only [updateRating, if_neg hr, ratingsFor, List.filter_cons]
      by_cases hread : (r.user_id == uid' && r.content_type == ct' &&
          r.content_id == cid') = true
      · rw [if_pos hread, if_pos hread]
        simpa using ih
      · rw [if_neg hread, if_neg hread]
        exact ih

/-- `updateRating` does not change the number of stored rows. -/
lemma updateRating_length :
    ∀ (rows : List RatingRow) (uid : Nat) (ct : ContentType) (cid : Nat)
      (v : RatingValue) (rv : Option String),
      (updateRating rows uid ct cid v rv).length = rows.length := by
  intro rows uid ct cid v rv
  induction rows with
  | nil => rfl
  | cons r rest ih =>
    by_cases hr : (r.user_id == uid && r.content_type == ct &&
        r.content_id == cid) = true
    · simp only [updateRating, if_pos hr, List.length_cons]
    · simp only [updateRating, if_neg hr, List.length_cons, ih]

/-- Updating the found row keeps it first for its key, with the new value and
review and the same id. -/
lemma findRating_updateRating :
    ∀ (rows : List RatingRow) (uid : Nat) (ct : ContentType) (cid : Nat)
      (v : RatingValue) (rv : Option String) (r : RatingRow),
      findRating rows uid ct cid = some r →
      findRating (updateRating rows uid ct cid v rv) uid ct cid =
        some { r with rating := v, review_text := rv } := by
  intro rows uid ct cid v rv
  induction rows with
  | nil => intro r h; cases h
  | cons a rest ih =>
    intro r h
    by_cases ha : (a.user_id == uid && a.content_type == ct &&
        a.content_id == cid) = true
    · simp only [findRating, if_pos ha] at h
      injection h with h
      subst h
      simp only [updateRating, if_pos ha, findRating]
    · simp only [findRating, if_neg ha] at h
      simp only [updateRating, if_neg ha, findRating, if_neg ha]
      exact ih r h

/-- Invariant of C6: every (user, ContentRef) pair has at most one row. -/
def atMostOneRating (s : RatingStore) : Prop :=
  ∀ uid ct cid, (ratingsFor s.rows uid ct cid).length ≤ 1

/-- Filtering for a key steps through a cons by the key test. -/
lemma ratingsFor_cons (r : RatingRow) (rows : List RatingRow) (uid : Nat)
    (ct : ContentType) (cid : Nat) :
    ratingsFor (r :: rows) uid ct cid =
      if r.user_id == uid && r.content_type == ct && r.content_id == cid then
        r :: ratingsFor rows uid ct cid
      else ratingsFor rows uid ct cid := by
  simp [ratingsFor, List.filter_cons]

lemma rate_atMostOne (s : RatingStore) (uid : Nat) (ct : ContentType)
    (cid : Nat) (v : RatingValue) (rv : Option String)
    (h : atMostOneRating s) : atMostOneRating (rate s uid ct cid v rv) := by
  intro uid' ct' cid'
  cases hf : findRating s.rows uid ct cid with
  | none =>
    have hempty := findRating_none_ratingsFor s.rows uid ct cid hf
    simp only [rate, hf]
    by_cases h1 : uid = uid'
    · subst h1
      by_cases h2 : ct = ct'
      · subst h2
        by_cases h3 : cid = cid'
        · subst h3
          simp [ratingsFor_cons, hempty]
        · simp [ratingsFor_cons, h3]
          exact h uid ct cid'
      · simp [ratingsFor_cons, h2]
        exact h uid ct' cid'
    · simp [ratingsFor_cons, h1]
      exact h uid' ct' cid'
  | some r =>
    simp only [rate, hf]
    rw [ratingsFor_updateRating]
    exact h uid' ct' cid'

lemma runRatings_atMostOne : ∀ (ops : List RateOp) (s : RatingStore),
    atMostOneRating s → atMostOneRating (runRatings s ops) := by
  intro ops
  induction ops with
  | nil => exact fun s h => h
  | cons op t ih =>
    intro s h
    exact ih _ (rate_atMostOne s op.user_id op.content_type op.content_id
      op.value op.review h)

/-- C6: after any sequence of `rate` calls from an empty store, every
(user, ContentRef) pair has at most one rating row; and a `rate` call on a
pair that already has a row updates that row's value and review in place
(same id, same total row count) instead of inserting. -/
theorem rating_upsert_unique :
    (∀ (ops : List RateOp) (uid : Nat) (ct : ContentType) (cid : Nat),
      (ratingsFor (runRatings emptyRatingStore ops).rows uid ct cid).length
        ≤ 1) ∧
    (∀ (s : RatingStore) (uid : Nat) (ct : ContentType) (cid : Nat)
      (v : RatingValue) (rv : Option String) (r : RatingRow),
      findRating s.rows uid ct cid = some r →
      (rate s uid ct cid v rv).rows.length = s.rows.length ∧
      findRating (rate s uid ct cid v rv).rows uid ct cid =
        some { r with rating := v, review_text := rv }) := by
  constructor
  · intro ops uid ct cid
    exact runRatings_atMostOne ops emptyRatingStore
      (fun _ _ _ => Nat.zero_le 1) uid ct cid
  · intro s uid ct cid v rv r hf
    constructor
    · simp only [rate, hf]
      exact updateRating_length s.rows uid ct cid v rv
    · simp only [rate, hf]
      exact findRating_updateRating s.rows uid ct cid v rv r hf

/-- A one-row rating store for the C6 witness. -/
def demoRatingStore : RatingStore :=
  { rows := [{ id := 1, user_id := 4, content_type := ContentType.summary
               content_id := 9, rating := RatingValue.star3
               review_text := none }]
    nextId := 2 }

/-- Witness for C6: re-rating summary 9 by user 4 replaces the value with
five stars in place, keeping one row and the same row id. -/
theorem rating_upsert_unique_witness :
    (rate demoRatingStore 4 ContentType.summary 9 RatingValue.star5
      (some "great")).rows.length = demoRatingStore.rows.length ∧
    findRating (rate demoRatingStore 4 ContentType.summary 9 RatingValue.star5
        (some "great")).rows 4 ContentType.summary 9 =
      some { id := 1, user_id := 4, content_type := ContentType.summary
             content_id := 9, rating := RatingValue.star5
             review_text := some "great" } :=
  rating_upsert_unique.2 demoRatingStore 4 ContentType.summary 9
    RatingValue.star5 (some "great")
    { id := 1, user_id := 4, content_type := ContentType.summary
      content_id := 9, rating := RatingValue.star3, review_text := none }
    (by decide)

/-! ## Notification Dispatcher lemmas -/

/-- Invariant of C8: no stored notification is a self-notification. -/
def noSelfNotification (s : NotificationStore) : Prop :=
  ∀ r ∈ s.rows, r.actor_id ≠ some r.user_id

lemma dispatch_noSelf (s : NotificationStore) (e : NotificationEvent)
    (h : noSelfNotification s) : noSelfNotification (dispatch s e) := by
  unfold dispatch
  by_cases hc : e.actor_id = some e.user_id
  · rw [if_pos hc]
    exact h
  · rw [if_neg hc]
    intro r hr
    rcases List.mem_cons.mp hr with hr | hr
    · subst hr
      exact hc
    · exact h r hr

lemma runDispatch_noSelf : ∀ (events : List NotificationEvent)
    (s : NotificationStore),
    noSelfNotification s → noSelfNotification (runDispatch s events) := by
  intro events
  induction events with
  | nil => exact fun s h => h
  | cons e t ih =>
    intro s h
    exact ih _ (dispatch_noSelf s e h)

/-- C8: a dispatch whose event has actor equal to the recipient creates zero
notification rows (the store is unchanged), and in every store reachable by
dispatching from the empty store no notification row has
`actor_id = user_id`. -/
theorem dispatch_no_self_notification :
    (∀ (s : NotificationStore) (e : NotificationEvent),
      e.actor_id = some e.user_id → dispatch s e = s) ∧
    (∀ (events : List NotificationEvent) (r : NotificationRow),
      r ∈ (runDispatch emptyNotificationStore events).rows →
      r.actor_id ≠ some r.user_id) := by
  constructor
  · intro s e h
    simp [dispatch, h]
  · intro events
    exact runDispatch_noSelf events emptyNotificationStore
      (fun r hr => absurd hr (List.not_mem_nil r))

/-- A self-directed mention event for the C8 witness. -/
def demoSelfEvent : NotificationEvent :=
  { notification_type := NotificationType.mention, user_id := 5
    actor_id := some 5, related_content_type := some ContentType.quiz
    related_content_id := some 3, related_community_id := none
    message := "you mentioned yourself" }

/-- Witness for C8: dispatching two self-directed events creates zero rows. -/
theorem dispatch_no_self_notification_witness :
    dispatch (dispatch emptyNotificationStore demoSelfEvent) demoSelfEvent =
      dispatch emptyNotificationStore demoSelfEvent :=
  dispatch_no_self_notification.1 (dispatch emptyNotificationStore
    demoSelfEvent) demoSelfEvent (by decide)

end StudyHelper
